import Mathlib

/-!
Shallow embedding of `starbot` (`src/main.rs`): the Star Realms change
tracker (`StarRealmsShared` with its `check_turns`, `check_challenges`,
`check_finished` operations), the poll loop driven by `Handler::ready`,
and the command matching in `Handler::message`.

Modelling conventions:
- `i64` game and challenge ids become `Int` (only equality is used).
- `tokio::time::Instant` becomes a `Nat` count of milliseconds; each
  operation that reads `Instant::now()` takes the current time as an
  explicit `now` argument.  `Instant::elapsed().as_secs()` becomes
  truncating division of a millisecond difference by 1000.
- The `HashMap<i64, Game>` fields become association lists with
  overwrite-on-insert (`upsert`), looked up with `lookupId`; `extend`
  becomes `extendMap`.
- `Game::which_turn()` is a pure method of the game record; it is
  modelled as a field `which_turn`, so equal records give equal results.
- The fallible remote fetch `self.sr.activity().await` (a `Result`)
  becomes an `Option Activity` argument; the `.expect("Could not get
  activity")` panic on a failed fetch is modelled by propagating `none`
  (the computation aborts and returns no value, leaving state as it was
  at the panic point).
-/

namespace Starbot

/-- Record of an active or finished game, as `star_realms_rs::Game` is used
by `main.rs`: its id, the value of `which_turn()` (the player whose turn it
is), and the opponent name used when formatting messages. -/
structure Game where
  id : Int
  which_turn : String
  opponentname : String
  deriving DecidableEq, Repr

/-- Record of a pending challenge, as `star_realms_rs::Challenge` is used by
`main.rs`: its id, the challenger name and the opponent name. -/
structure Challenge where
  id : Int
  challengername : String
  opponentname : String
  deriving DecidableEq, Repr

/-- One activity snapshot returned by `self.sr.activity()`: active games,
pending challenges and finished games. -/
structure Activity where
  activegames : List Game
  challenges : List Challenge
  finishedgames : List Game
  deriving DecidableEq, Repr

/-- The shared tracker state `StarRealmsShared` (without the opaque
`StarRealms` client handle): `game_turns : HashMap<i64, Game>`,
`challenges : Vec<i64>`, `finished : Vec<i64>`, `last_update : Instant`. -/
structure StarRealmsShared where
  game_turns : List (Int × Game)
  challenges : List Int
  finished : List Int
  last_update : Nat
  deriving DecidableEq, Repr

/-- Lookup in the association-list model of `HashMap<i64, Game>`
(`self.game_turns.get(&game.id)`). -/
def lookupId (k : Int) : List (Int × Game) → Option Game
  | [] => none
  | (k2, v) :: rest => if k = k2 then some v else lookupId k rest

/-- Insert-or-overwrite in the association-list model of `HashMap<i64, Game>`
(`turns.insert(game.id, game)`). -/
def upsert : List (Int × Game) → Int → Game → List (Int × Game)
  | [], k, v => [(k, v)]
  | (k2, v2) :: rest, k, v =>
    if k2 = k then (k, v) :: rest else (k2, v2) :: upsert rest k v

/-- Left-biased choice of two optional lookups, used to state lemmas about
lookups in combined maps. -/
def firstSome : Option Game → Option Game → Option Game
  | some v, _ => some v
  | none, b => b

/-- Bulk insert (`self.game_turns.extend(turns.clone())`). -/
def extendMap : List (Int × Game) → List (Int × Game) → List (Int × Game)
  | m, [] => m
  | m, (k, v) :: rest => extendMap (upsert m k v) rest

/-- The per-game condition of `check_turns`: a game is recorded (and
reported) when `self.game_turns.get(&game.id)` is `None`, or when the stored
game's `which_turn()` differs from the fetched game's `which_turn()`. -/
def turnChanged (gt : List (Int × Game)) (g : Game) : Bool :=
  match lookupId g.id gt with
  | none => true
  | some old => old.which_turn != g.which_turn

/-- The `for game in activity.activegames` loop of `check_turns`: builds the
local `turns` map, inserting each game whose turn changed.  `self.game_turns`
(`gt`) is not modified during the loop. -/
def collectTurns (gt : List (Int × Game)) : List Game → List (Int × Game) → List (Int × Game)
  | [], acc => acc
  | g :: rest, acc =>
    if turnChanged gt g then collectTurns gt rest (upsert acc g.id g)
    else collectTurns gt rest acc

/-- `StarRealmsShared::check_turns`, applied to an already-fetched activity
snapshot `a` at current time `now`: returns the reported `turns` map and the
updated state.  When the report is non-empty, `self.game_turns` is extended
with it and `self.last_update` is set to `now`; otherwise the state is left
unchanged. -/
def check_turns (now : Nat) (a : Activity) (st : StarRealmsShared) :
    List (Int × Game) × StarRealmsShared :=
  let turns := collectTurns st.game_turns a.activegames []
  if turns = [] then (turns, st)
  else (turns, { st with game_turns := extendMap st.game_turns turns, last_update := now })

/-- The `for chal in activity.challenges` loop of `check_challenges`: each
challenge whose id is not in `self.challenges` (`seen`) is pushed onto
`seen` and onto the report `acc`, in iteration order. -/
def collectChals : List Challenge → List Int → List Challenge → List Challenge × List Int
  | [], seen, acc => (acc, seen)
  | c :: rest, seen, acc =>
    if c.id ∈ seen then collectChals rest seen acc
    else collectChals rest (seen ++ [c.id]) (acc ++ [c])

/-- `StarRealmsShared::check_challenges`, applied to a fetched snapshot `a`
at time `now`: unseen challenge ids are recorded and reported; when at least
one was reported, `self.last_update` is set to `now`. -/
def check_challenges (now : Nat) (a : Activity) (st : StarRealmsShared) :
    List Challenge × StarRealmsShared :=
  let p := collectChals a.challenges st.challenges []
  if p.1 = [] then (p.1, { st with challenges := p.2 })
  else (p.1, { st with challenges := p.2, last_update := now })

/-- The `for game in activity.finishedgames` loop of `check_finished`: same
pattern as `collectChals`, keyed on the finished game's id against
`self.finished`. -/
def collectFins : List Game → List Int → List Game → List Game × List Int
  | [], seen, acc => (acc, seen)
  | g :: rest, seen, acc =>
    if g.id ∈ seen then collectFins rest seen acc
    else collectFins rest (seen ++ [g.id]) (acc ++ [g])

/-- `StarRealmsShared::check_finished`, applied to a fetched snapshot `a` at
time `now`. -/
def check_finished (now : Nat) (a : Activity) (st : StarRealmsShared) :
    List Game × StarRealmsShared :=
  let p := collectFins a.finishedgames st.finished []
  if p.1 = [] then (p.1, { st with finished := p.2 })
  else (p.1, { st with finished := p.2, last_update := now })

/-- The state built by the record literal at the start of
`StarRealmsShared::new`: empty maps and `last_update = Instant::now()`
(time `t0`). -/
def initialShared (t0 : Nat) : StarRealmsShared :=
  { game_turns := [], challenges := [], finished := [], last_update := t0 }

/-- `StarRealmsShared::new` (priming): the initial state at construction
time `t0`, then `check_turns`, `check_challenges`, `check_finished` run in
order at times `t1`, `t2`, `t3` on the snapshots their fetches return, with
all three reports discarded. -/
def newShared (t0 t1 t2 t3 : Nat) (a1 a2 a3 : Activity) : StarRealmsShared :=
  (check_finished t3 a3
    (check_challenges t2 a2
      (check_turns t1 a1 (initialShared t0)).2).2).2

/-- The adaptive sleep chosen at the end of each poll-loop iteration in
`Handler::ready`: 60 seconds when
`sr.last_update.elapsed().as_secs() >= 30 * 60`, else 5 seconds.  `now` is
the current time in milliseconds; `as_secs` truncates. -/
def pollSleep (now : Nat) (st : StarRealmsShared) : Nat :=
  if (now - st.last_update) / 1000 ≥ 30 * 60 then 60 else 5

/-- `check_turns` including its internal fetch
`self.sr.activity().await.expect("Could not get activity")`: on a failed
fetch (`none`) the `expect` panics before any state is touched, modelled by
returning `none` with the state unchanged. -/
def check_turnsF (now : Nat) (fetch : Option Activity) (st : StarRealmsShared) :
    Option (List (Int × Game)) × StarRealmsShared :=
  match fetch with
  | none => (none, st)
  | some a => (some (check_turns now a st).1, (check_turns now a st).2)

/-- `check_challenges` including its internal fetch, as `check_turnsF`. -/
def check_challengesF (now : Nat) (fetch : Option Activity) (st : StarRealmsShared) :
    Option (List Challenge) × StarRealmsShared :=
  match fetch with
  | none => (none, st)
  | some a => (some (check_challenges now a st).1, (check_challenges now a st).2)

/-- `check_finished` including its internal fetch, as `check_turnsF`. -/
def check_finishedF (now : Nat) (fetch : Option Activity) (st : StarRealmsShared) :
    Option (List Game) × StarRealmsShared :=
  match fetch with
  | none => (none, st)
  | some a => (some (check_finished now a st).1, (check_finished now a st).2)

/-- One iteration of the poll loop spawned in `Handler::ready`: it runs
`sr.check_turns()`, then `sr.check_challenges()`, then `sr.check_finished()`,
each of which performs its own fetch.  `fetch j` is the result of the j-th
fetch of the process; the iteration starts at fetch index `i` and the final
component is the index the next iteration would start from.  A `none` fetch
makes the corresponding `expect` panic: the iteration aborts with `none`,
carrying the state as it was at the panic point, and no further check
runs. -/
def pollCycle (now : Nat) (fetch : Nat → Option Activity) (i : Nat) (st : StarRealmsShared) :
    Option (List (Int × Game) × List Challenge × List Game) × StarRealmsShared × Nat :=
  match check_turnsF now (fetch i) st with
  | (none, st2) => (none, st2, i + 1)
  | (some t, st2) =>
    match check_challengesF now (fetch (i + 1)) st2 with
    | (none, st3) => (none, st3, i + 2)
    | (some c, st3) =>
      match check_finishedF now (fetch (i + 2)) st3 with
      | (none, st4) => (none, st4, i + 3)
      | (some f, st4) => (some (t, c, f), st4, i + 3)

/-- Poll cycle as the specification describes it: ONE snapshot `a` is
fetched and all three detect operations are run against that same single
snapshot.  Stated from the spec for comparison with `pollCycle`, which is
the code's behaviour. -/
def pollCycleSingleFetch (now : Nat) (a : Activity) (st : StarRealmsShared) :
    (List (Int × Game) × List Challenge × List Game) × StarRealmsShared :=
  let t := check_turns now a st
  let c := check_challenges now a t.2
  let f := check_finished now a c.2
  ((t.1, c.1, f.1), f.2)

/-- The `!chal` command recognition in `Handler::message`:
`msg.content.starts_with("!chal")`, with no case folding.  The message text
is modelled as its character list. -/
def chalCommandTriggered (content : List Char) : Bool :=
  List.isPrefixOf "!chal".toList content

/-- The `!version` command recognition in `Handler::message`:
`msg.content.to_lowercase().starts_with("!version")`, modelled on character
lists with ASCII case folding (the command prefixes are ASCII). -/
def versionCommandTriggered (content : List Char) : Bool :=
  List.isPrefixOf "!version".toList (content.map Char.toLower)

/-- Repeated poll cycles of `check_challenges` alone over a list of
successive snapshots, keeping only the evolving state. -/
def runChals (now : Nat) (snaps : List Activity) (st : StarRealmsShared) : StarRealmsShared :=
  snaps.foldl (fun s a => (check_challenges now a s).2) st

/-- Repeated poll cycles of `check_finished` alone over a list of
successive snapshots, keeping only the evolving state. -/
def runFins (now : Nat) (snaps : List Activity) (st : StarRealmsShared) : StarRealmsShared :=
  snaps.foldl (fun s a => (check_finished now a s).2) st

/-- Closed form of the report built by `collectTurns` when the snapshot's
game ids are distinct: the games whose turn changed, in snapshot order,
keyed by id. -/
def resultOf (gt : List (Int × Game)) (games : List Game) : List (Int × Game) :=
  (games.filter (fun g => turnChanged gt g)).map (fun g => (g.id, g))

theorem lookupId_append (k : Int) (a b : List (Int × Game)) :
    lookupId k (a ++ b) = firstSome (lookupId k a) (lookupId k b) := by
  induction a with
  | nil => simp [lookupId, firstSome]
  | cons p rest ih =>
    cases p with
    | mk k2 v =>
      by_cases h : k = k2
      · simp [lookupId, h, firstSome]
      · simp [lookupId, h, ih]

theorem lookupId_not_mem (k : Int) (l : List (Int × Game)) (h : k ∉ l.map Prod.fst) :
    lookupId k l = none := by
  induction l with
  | nil => rfl
  | cons p rest ih =>
    cases p with
    | mk k2 v =>
      simp only [List.map_cons, List.mem_cons] at h
      push_neg at h
      simp [lookupId, h.1, ih h.2]

theorem lookupId_upsert_self (m : List (Int × Game)) (k : Int) (v : Game) :
    lookupId k (upsert m k v) = some v := by
  induction m with
  | nil => simp [upsert, lookupId]
  | cons p rest ih =>
    cases p with
    | mk k2 v2 =>
      by_cases h : k2 = k
      · simp [upsert, h, lookupId]
      · have h2 : k ≠ k2 := fun e => h e.symm
        simp [upsert, h, lookupId, h2, ih]

theorem lookupId_upsert_ne (m : List (Int × Game)) (k k2 : Int) (v : Game)
    (h : k ≠ k2) : lookupId k (upsert m k2 v) = lookupId k m := by
  induction m with
  | nil => simp [upsert, lookupId, h]
  | cons p rest ih =>
    cases p with
    | mk k3 v3 =>
      by_cases h3 : k3 = k2
      · subst h3
        simp [upsert, lookupId, h, fun e => h (e : k = k3)]
      · by_cases h4 : k = k3 <;> simp [upsert, h3, lookupId, h4, ih]

theorem upsert_of_lookup_none (m : List (Int × Game)) (k : Int) (v : Game)
    (h : lookupId k m = none) : upsert m k v = m ++ [(k, v)] := by
  induction m with
  | nil => rfl
  | cons p rest ih =>
    cases p with
    | mk k2 v2 =>
      rw [lookupId] at h
      by_cases h2 : k = k2
      · rw [if_pos h2] at h
        exact absurd h (by simp)
      · rw [if_neg h2] at h
        have h3 : k2 ≠ k := fun e => h2 e.symm
        simp [upsert, h3, ih h]

theorem lookupId_reverse (k : Int) (l : List (Int × Game))
    (h : (l.map Prod.fst).Nodup) : lookupId k l.reverse = lookupId k l := by
  induction l with
  | nil => rfl
  | cons p rest ih =>
    cases p with
    | mk k2 v =>
      simp only [List.map_cons, List.nodup_cons] at h
      rw [List.reverse_cons, lookupId_append]
      by_cases h2 : k = k2
      · subst h2
        rw [ih h.2, lookupId_not_mem k rest h.1]
        simp [lookupId, firstSome]
      · rw [ih h.2]
        cases hr : lookupId k rest <;> simp [lookupId, h2, firstSome, hr]

theorem lookupId_extendMap (k : Int) (m adds : List (Int × Game)) :
    lookupId k (extendMap m adds) = firstSome (lookupId k adds.reverse) (lookupId k m) := by
  induction adds generalizing m with
  | nil => simp [extendMap, lookupId, firstSome]
  | cons p rest ih =>
    cases p with
    | mk k2 v =>
      rw [extendMap, ih, List.reverse_cons, lookupId_append]
      by_cases h : k = k2
      · subst h
        rw [lookupId_upsert_self]
        cases hr : lookupId k rest.reverse <;> simp [firstSome, lookupId]
      · rw [lookupId_upsert_ne _ _ _ _ h]
        cases hr : lookupId k rest.reverse <;> simp [firstSome, lookupId, h]

theorem collectTurns_eq (gt : List (Int × Game)) (games : List Game)
    (acc : List (Int × Game)) (hnd : (games.map Game.id).Nodup)
    (hacc : ∀ g ∈ games, lookupId g.id acc = none) :
    collectTurns gt games acc = acc ++ resultOf gt games := by
  induction games generalizing acc with
  | nil => simp [collectTurns, resultOf]
  | cons g rest ih =>
    simp only [List.map_cons, List.nodup_cons] at hnd
    have hacc1 : lookupId g.id acc = none := hacc g (by simp)
    have haccR : ∀ g2 ∈ rest, g2.id ≠ g.id := by
      intro g2 hg2 he
      exact hnd.1 (he ▸ List.mem_map.mpr ⟨g2, hg2, rfl⟩)
    by_cases hc : turnChanged gt g = true
    · rw [collectTurns]
      rw [if_pos hc, upsert_of_lookup_none _ _ _ hacc1]
      rw [ih (acc ++ [(g.id, g)]) hnd.2 ?_]
      · simp [resultOf, List.filter_cons, hc]
      · intro g2 hg2
        rw [lookupId_append, hacc g2 (by simp [hg2])]
        simp [lookupId, firstSome, haccR g2 hg2]
    · rw [collectTurns, if_neg hc, ih acc hnd.2 (fun g2 hg2 => hacc g2 (by simp [hg2]))]
      simp [resultOf, List.filter_cons, hc]

theorem resultOf_keys (gt : List (Int × Game)) (games : List Game) :
    (resultOf gt games).map Prod.fst
      = (games.filter (fun g => turnChanged gt g)).map Game.id := by
  simp [resultOf, List.map_map, Function.comp]

theorem resultOf_keys_nodup (gt : List (Int × Game)) (games : List Game)
    (hnd : (games.map Game.id).Nodup) : ((resultOf gt games).map Prod.fst).Nodup := by
  rw [resultOf_keys]
  exact List.Nodup.sublist (List.Sublist.map Game.id (List.filter_sublist _)) hnd

theorem lookupId_resultOf_not_mem (gt : List (Int × Game)) (games : List Game)
    (k : Int) (h : k ∉ games.map Game.id) : lookupId k (resultOf gt games) = none := by
  apply lookupId_not_mem
  rw [resultOf_keys]
  intro hmem
  exact h (List.Sublist.subset (List.Sublist.map Game.id (List.filter_sublist _)) hmem)

theorem lookupId_resultOf (gt : List (Int × Game)) (games : List Game) (g : Game)
    (hnd : (games.map Game.id).Nodup) (hg : g ∈ games) :
    lookupId g.id (resultOf gt games) = if turnChanged gt g then some g else none := by
  induction games with
  | nil => cases hg
  | cons g0 rest ih =>
    simp only [List.map_cons, List.nodup_cons] at hnd
    rcases List.mem_cons.mp hg with rfl | hg2
    · by_cases hc : turnChanged gt g = true
      · simp [resultOf, List.filter_cons, hc, lookupId]
      · simp only [hc, if_false]
        simp [resultOf, List.filter_cons, hc]
        exact lookupId_resultOf_not_mem gt rest g.id hnd.1
    · have hne : g.id ≠ g0.id := by
        intro e
        exact hnd.1 (e ▸ List.mem_map.mpr ⟨g, hg2, rfl⟩)
      have ihr := ih hnd.2 hg2
      by_cases hc : turnChanged gt g0 = true
      · simp only [resultOf, List.filter_cons, hc, if_true, List.map_cons] at *
        simpa [lookupId, hne] using ihr
      · simp only [resultOf, List.filter_cons, hc] at *
        simpa using ihr

theorem check_turns_fst (now : Nat) (a : Activity) (st : StarRealmsShared) :
    (check_turns now a st).1 = collectTurns st.game_turns a.activegames [] := by
  simp only [check_turns]
  split <;> rfl

theorem check_turns_fst_eq (now : Nat) (a : Activity) (st : StarRealmsShared)
    (hnd : (a.activegames.map Game.id).Nodup) :
    (check_turns now a st).1 = resultOf st.game_turns a.activegames := by
  rw [check_turns_fst,
    collectTurns_eq st.game_turns a.activegames [] hnd (fun g _ => rfl)]
  simp

theorem check_turns_gt (now : Nat) (a : Activity) (st : StarRealmsShared) :
    (check_turns now a st).2.game_turns
      = extendMap st.game_turns (collectTurns st.game_turns a.activegames []) := by
  simp only [check_turns]
  split
  · next he => rw [he]; rfl
  · rfl

theorem check_turns_chals (now : Nat) (a : Activity) (st : StarRealmsShared) :
    (check_turns now a st).2.challenges = st.challenges := by
  simp only [check_turns]
  split <;> rfl

theorem check_turns_fins (now : Nat) (a : Activity) (st : StarRealmsShared) :
    (check_turns now a st).2.finished = st.finished := by
  simp only [check_turns]
  split <;> rfl

theorem check_turns_last_update (now : Nat) (a : Activity) (st : StarRealmsShared) :
    (check_turns now a st).2.last_update
      = if (check_turns now a st).1 = [] then st.last_update else now := by
  simp only [check_turns]
  split <;> simp_all

theorem check_challenges_fst (now : Nat) (a : Activity) (st : StarRealmsShared) :
    (check_challenges now a st).1 = (collectChals a.challenges st.challenges []).1 := by
  simp only [check_challenges]
  split <;> rfl

theorem check_challenges_seen (now : Nat) (a : Activity) (st : StarRealmsShared) :
    (check_challenges now a st).2.challenges
      = (collectChals a.challenges st.challenges []).2 := by
  simp only [check_challenges]
  split <;> rfl

theorem check_challenges_gt (now : Nat) (a : Activity) (st : StarRealmsShared) :
    (check_challenges now a st).2.game_turns = st.game_turns := by
  simp only [check_challenges]
  split <;> rfl

theorem check_challenges_fins (now : Nat) (a : Activity) (st : StarRealmsShared) :
    (check_challenges now a st).2.finished = st.finished := by
  simp only [check_challenges]
  split <;> rfl

theorem check_challenges_last_update (now : Nat) (a : Activity) (st : StarRealmsShared) :
    (check_challenges now a st).2.last_update
      = if (check_challenges now a st).1 = [] then st.last_update else now := by
  simp only [check_challenges]
  split <;> simp_all

theorem check_finished_fst (now : Nat) (a : Activity) (st : StarRealmsShared) :
    (check_finished now a st).1 = (collectFins a.finishedgames st.finished []).1 := by
  simp only [check_finished]
  split <;> rfl

theorem check_finished_seen (now : Nat) (a : Activity) (st : StarRealmsShared) :
    (check_finished now a st).2.finished
      = (collectFins a.finishedgames st.finished []).2 := by
  simp only [check_finished]
  split <;> rfl

theorem check_finished_gt (now : Nat) (a : Activity) (st : StarRealmsShared) :
    (check_finished now a st).2.game_turns = st.game_turns := by
  simp only [check_finished]
  split <;> rfl

theorem check_finished_chals (now : Nat) (a : Activity) (st : StarRealmsShared) :
    (check_finished now a st).2.challenges = st.challenges := by
  simp only [check_finished]
  split <;> rfl

theorem check_finished_last_update (now : Nat) (a : Activity) (st : StarRealmsShared) :
    (check_finished now a st).2.last_update
      = if (check_finished now a st).1 = [] then st.last_update else now := by
  simp only [check_finished]
  split <;> simp_all

theorem collectChals_seen_mono (l : List Challenge) (seen : List Int)
    (acc : List Challenge) : ∀ i ∈ seen, i ∈ (collectChals l seen acc).2 := by
  induction l generalizing seen acc with
  | nil => intro i hi; simpa [collectChals] using hi
  | cons c rest ih =>
    intro i hi
    by_cases hm : c.id ∈ seen
    · rw [collectChals, if_pos hm]
      exact ih seen acc i hi
    · rw [collectChals, if_neg hm]
      exact ih _ _ i (by simp [hi])

theorem collectChals_mem_seen (l : List Challenge) (seen : List Int)
    (acc : List Challenge) : ∀ c ∈ l, c.id ∈ (collectChals l seen acc).2 := by
  induction l generalizing seen acc with
  | nil => intro c hc; cases hc
  | cons c0 rest ih =>
    intro c hc
    rcases List.mem_cons.mp hc with rfl | h2
    · by_cases hm : c.id ∈ seen
      · rw [collectChals, if_pos hm]
        exact collectChals_seen_mono rest seen acc c.id hm
      · rw [collectChals, if_neg hm]
        exact collectChals_seen_mono rest _ _ c.id (by simp)
    · by_cases hm : c0.id ∈ seen
      · rw [collectChals, if_pos hm]
        exact ih seen acc c h2
      · rw [collectChals, if_neg hm]
        exact ih _ _ c h2

theorem collectChals_acc_mono (l : List Challenge) (seen : List Int)
    (acc : List Challenge) : ∃ t, (collectChals l seen acc).1 = acc ++ t := by
  induction l generalizing seen acc with
  | nil => exact ⟨[], by simp [collectChals]⟩
  | cons c rest ih =>
    by_cases hm : c.id ∈ seen
    · rw [collectChals, if_pos hm]
      exact ih seen acc
    · rw [collectChals, if_neg hm]
      obtain ⟨t, ht⟩ := ih (seen ++ [c.id]) (acc ++ [c])
      exact ⟨c :: t, by simp [ht]⟩

theorem collectChals_not_reported (l : List Challenge) (seen : List Int)
    (acc : List Challenge) (i : Int) (hseen : i ∈ seen)
    (hacc : i ∉ acc.map Challenge.id) :
    i ∉ (collectChals l seen acc).1.map Challenge.id := by
  induction l generalizing seen acc with
  | nil => simpa [collectChals] using hacc
  | cons c rest ih =>
    by_cases hm : c.id ∈ seen
    · rw [collectChals, if_pos hm]
      exact ih seen acc hseen hacc
    · rw [collectChals, if_neg hm]
      apply ih _ _ (by simp [hseen])
      intro hmem
      rcases (by simpa using hmem : i ∈ acc.map Challenge.id ∨ i = c.id) with h | h
      · exact hacc h
      · exact hm (h ▸ hseen)

theorem collectChals_reported_of_fresh (l : List Challenge) (seen : List Int)
    (acc : List Challenge) (i : Int) (hinv : i ∈ seen → i ∈ acc.map Challenge.id)
    (hl : i ∈ l.map Challenge.id) :
    i ∈ (collectChals l seen acc).1.map Challenge.id := by
  induction l generalizing seen acc with
  | nil => cases hl
  | cons c rest ih =>
    simp only [List.map_cons, List.mem_cons] at hl
    by_cases hm : c.id ∈ seen
    · rw [collectChals, if_pos hm]
      rcases hl with rfl | h2
      · obtain ⟨t, ht⟩ := collectChals_acc_mono rest seen acc
        rw [ht, List.map_append]
        exact List.mem_append_left _ (hinv hm)
      · exact ih seen acc hinv h2
    · rw [collectChals, if_neg hm]
      rcases hl with rfl | h2
      · obtain ⟨t, ht⟩ := collectChals_acc_mono rest (seen ++ [c.id]) (acc ++ [c])
        rw [ht, List.map_append]
        apply List.mem_append_left
        simp
      · apply ih _ _ ?_ h2
        intro hs
        rcases List.mem_append.mp hs with h | h
        · rw [List.map_append]
          exact List.mem_append_left _ (hinv h)
        · rw [List.map_append]
          apply List.mem_append_right
          simpa using h

theorem collectChals_nodup (l : List Challenge) (seen : List Int)
    (acc : List Challenge) (hnd : (acc.map Challenge.id).Nodup)
    (hsub : ∀ i ∈ acc.map Challenge.id, i ∈ seen) :
    ((collectChals l seen acc).1.map Challenge.id).Nodup := by
  induction l generalizing seen acc with
  | nil => simpa [collectChals] using hnd
  | cons c rest ih =>
    by_cases hm : c.id ∈ seen
    · rw [collectChals, if_pos hm]
      exact ih seen acc hnd hsub
    · rw [collectChals, if_neg hm]
      apply ih
      · rw [List.map_append]
        refine List.Nodup.append hnd (by simp) ?_
        intro x hx hx2
        rcases (by simpa using hx2 : x = c.id) with rfl
        exact hm (hsub _ hx)
      · intro i hi
        rw [List.map_append] at hi
        rcases List.mem_append.mp hi with h | h
        · exact List.mem_append_left _ (hsub i h)
        · apply List.mem_append_right
          simpa using h

theorem collectChals_all_seen (l : List Challenge) (seen : List Int)
    (acc : List Challenge) (h : ∀ c ∈ l, c.id ∈ seen) :
    collectChals l seen acc = (acc, seen) := by
  induction l with
  | nil => rfl
  | cons c rest ih =>
    rw [collectChals, if_pos (h c (by simp))]
    exact ih (fun c2 h2 => h c2 (by simp [h2]))

theorem collectFins_seen_mono (l : List Game) (seen : List Int)
    (acc : List Game) : ∀ i ∈ seen, i ∈ (collectFins l seen acc).2 := by
  induction l generalizing seen acc with
  | nil => intro i hi; simpa [collectFins] using hi
  | cons g rest ih =>
    intro i hi
    by_cases hm : g.id ∈ seen
    · rw [collectFins, if_pos hm]
      exact ih seen acc i hi
    · rw [collectFins, if_neg hm]
      exact ih _ _ i (by simp [hi])

theorem collectFins_mem_seen (l : List Game) (seen : List Int)
    (acc : List Game) : ∀ g ∈ l, g.id ∈ (collectFins l seen acc).2 := by
  induction l generalizing seen acc with
  | nil => intro g hg; cases hg
  | cons g0 rest ih =>
    intro g hg
    rcases List.mem_cons.mp hg with rfl | h2
    · by_cases hm : g.id ∈ seen
      · rw [collectFins, if_pos hm]
        exact collectFins_seen_mono rest seen acc g.id hm
      · rw [collectFins, if_neg hm]
        exact collectFins_seen_mono rest _ _ g.id (by simp)
    · by_cases hm : g0.id ∈ seen
      · rw [collectFins, if_pos hm]
        exact ih seen acc g h2
      · rw [collectFins, if_neg hm]
        exact ih _ _ g h2

theorem collectFins_acc_mono (l : List Game) (seen : List Int)
    (acc : List Game) : ∃ t, (collectFins l seen acc).1 = acc ++ t := by
  induction l generalizing seen acc with
  | nil => exact ⟨[], by simp [collectFins]⟩
  | cons g rest ih =>
    by_cases hm : g.id ∈ seen
    · rw [collectFins, if_pos hm]
      exact ih seen acc
    · rw [collectFins, if_neg hm]
      obtain ⟨t, ht⟩ := ih (seen ++ [g.id]) (acc ++ [g])
      exact ⟨g :: t, by simp [ht]⟩

theorem collectFins_not_reported (l : List Game) (seen : List Int)
    (acc : List Game) (i : Int) (hseen : i ∈ seen)
    (hacc : i ∉ acc.map Game.id) :
    i ∉ (collectFins l seen acc).1.map Game.id := by
  induction l generalizing seen acc with
  | nil => simpa [collectFins] using hacc
  | cons g rest ih =>
    by_cases hm : g.id ∈ seen
    · rw [collectFins, if_pos hm]
      exact ih seen acc hseen hacc
    · rw [collectFins, if_neg hm]
      apply ih _ _ (by simp [hseen])
      intro hmem
      rcases (by simpa using hmem : i ∈ acc.map Game.id ∨ i = g.id) with h | h
      · exact hacc h
      · exact hm (h ▸ hseen)

theorem collectFins_reported_of_fresh (l : List Game) (seen : List Int)
    (acc : List Game) (i : Int) (hinv : i ∈ seen → i ∈ acc.map Game.id)
    (hl : i ∈ l.map Game.id) :
    i ∈ (collectFins l seen acc).1.map Game.id := by
  induction l generalizing seen acc with
  | nil => cases hl
  | cons g rest ih =>
    simp only [List.map_cons, List.mem_cons] at hl
    by_cases hm : g.id ∈ seen
    · rw [collectFins, if_pos hm]
      rcases hl with rfl | h2
      · obtain ⟨t, ht⟩ := collectFins_acc_mono rest seen acc
        rw [ht, List.map_append]
        exact List.mem_append_left _ (hinv hm)
      · exact ih seen acc hinv h2
    · rw [collectFins, if_neg hm]
      rcases hl with rfl | h2
      · obtain ⟨t, ht⟩ := collectFins_acc_mono rest (seen ++ [g.id]) (acc ++ [g])
        rw [ht, List.map_append]
        apply List.mem_append_left
        simp
      · apply ih _ _ ?_ h2
        intro hs
        rcases List.mem_append.mp hs with h | h
        · rw [List.map_append]
          exact List.mem_append_left _ (hinv h)
        · rw [List.map_append]
          apply List.mem_append_right
          simpa using h

theorem collectFins_nodup (l : List Game) (seen : List Int)
    (acc : List Game) (hnd : (acc.map Game.id).Nodup)
    (hsub : ∀ i ∈ acc.map Game.id, i ∈ seen) :
    ((collectFins l seen acc).1.map Game.id).Nodup := by
  induction l generalizing seen acc with
  | nil => simpa [collectFins] using hnd
  | cons g rest ih =>
    by_cases hm : g.id ∈ seen
    · rw [collectFins, if_pos hm]
      exact ih seen acc hnd hsub
    · rw [collectFins, if_neg hm]
      apply ih
      · rw [List.map_append]
        refine List.Nodup.append hnd (by simp) ?_
        intro x hx hx2
        rcases (by simpa using hx2 : x = g.id) with rfl
        exact hm (hsub _ hx)
      · intro i hi
        rw [List.map_append] at hi
        rcases List.mem_append.mp hi with h | h
        · exact List.mem_append_left _ (hsub i h)
        · apply List.mem_append_right
          simpa using h

theorem collectFins_all_seen (l : List Game) (seen : List Int)
    (acc : List Game) (h : ∀ g ∈ l, g.id ∈ seen) :
    collectFins l seen acc = (acc, seen) := by
  induction l with
  | nil => rfl
  | cons g rest ih =>
    rw [collectFins, if_pos (h g (by simp))]
    exact ih (fun g2 h2 => h g2 (by simp [h2]))

theorem lookupId_after_check_turns (now : Nat) (a : Activity) (st : StarRealmsShared)
    (hnd : (a.activegames.map Game.id).Nodup) (k : Int) :
    lookupId k (check_turns now a st).2.game_turns
      = firstSome (lookupId k (resultOf st.game_turns a.activegames))
          (lookupId k st.game_turns) := by
  rw [check_turns_gt,
    collectTurns_eq st.game_turns a.activegames [] hnd (fun g _ => rfl)]
  simp only [List.nil_append]
  rw [lookupId_extendMap, lookupId_reverse _ _ (resultOf_keys_nodup _ _ hnd)]

theorem turnChanged_after (now : Nat) (a : Activity) (st : StarRealmsShared)
    (hnd : (a.activegames.map Game.id).Nodup) (g : Game) (hg : g ∈ a.activegames) :
    turnChanged (check_turns now a st).2.game_turns g = false := by
  have hl := lookupId_after_check_turns now a st hnd g.id
  rw [lookupId_resultOf st.game_turns a.activegames g hnd hg] at hl
  by_cases hc : turnChanged st.game_turns g = true
  · rw [if_pos hc] at hl
    simp only [firstSome] at hl
    rw [turnChanged, hl]
    simp
  · rw [if_neg hc] at hl
    simp only [firstSome] at hl
    rw [turnChanged, hl]
    rw [turnChanged] at hc
    revert hc
    cases lookupId g.id st.game_turns <;> simp

theorem collectTurns_all_unchanged (gt : List (Int × Game)) (games : List Game)
    (acc : List (Int × Game)) (h : ∀ g ∈ games, turnChanged gt g = false) :
    collectTurns gt games acc = acc := by
  induction games generalizing acc with
  | nil => rfl
  | cons g rest ih =>
    rw [collectTurns, if_neg (by simp [h g (by simp)])]
    exact ih _ (fun g2 h2 => h g2 (by simp [h2]))

theorem turnChanged_true_iff (gt : List (Int × Game)) (g : Game) :
    turnChanged gt g = true ↔
      (lookupId g.id gt = none ∨
        ∃ old, lookupId g.id gt = some old ∧ old.which_turn ≠ g.which_turn) := by
  rw [turnChanged]
  cases hl : lookupId g.id gt with
  | none => simp
  | some old => simp [bne_iff_ne]

theorem check_turns_last_update_ge (now : Nat) (a : Activity) (st : StarRealmsShared)
    (h : st.last_update ≤ now) : st.last_update ≤ (check_turns now a st).2.last_update := by
  rw [check_turns_last_update]
  split_ifs
  · exact Nat.le_refl _
  · exact h

theorem check_turns_last_update_le (now : Nat) (a : Activity) (st : StarRealmsShared)
    (h : st.last_update ≤ now) : (check_turns now a st).2.last_update ≤ now := by
  rw [check_turns_last_update]
  split_ifs
  · exact h
  · exact Nat.le_refl _

theorem check_challenges_last_update_ge (now : Nat) (a : Activity) (st : StarRealmsShared)
    (h : st.last_update ≤ now) :
    st.last_update ≤ (check_challenges now a st).2.last_update := by
  rw [check_challenges_last_update]
  split_ifs
  · exact Nat.le_refl _
  · exact h

theorem check_challenges_last_update_le (now : Nat) (a : Activity) (st : StarRealmsShared)
    (h : st.last_update ≤ now) : (check_challenges now a st).2.last_update ≤ now := by
  rw [check_challenges_last_update]
  split_ifs
  · exact h
  · exact Nat.le_refl _

theorem check_finished_last_update_ge (now : Nat) (a : Activity) (st : StarRealmsShared)
    (h : st.last_update ≤ now) :
    st.last_update ≤ (check_finished now a st).2.last_update := by
  rw [check_finished_last_update]
  split_ifs
  · exact Nat.le_refl _
  · exact h

theorem check_finished_last_update_le (now : Nat) (a : Activity) (st : StarRealmsShared)
    (h : st.last_update ≤ now) : (check_finished now a st).2.last_update ≤ now := by
  rw [check_finished_last_update]
  split_ifs
  · exact h
  · exact Nat.le_refl _

theorem runChals_mono (now : Nat) (snaps : List Activity) (st : StarRealmsShared) :
    ∀ i ∈ st.challenges, i ∈ (runChals now snaps st).challenges := by
  induction snaps generalizing st with
  | nil => intro i hi; exact hi
  | cons a rest ih =>
    intro i hi
    show i ∈ (runChals now rest (check_challenges now a st).2).challenges
    apply ih
    rw [check_challenges_seen]
    exact collectChals_seen_mono _ _ _ i hi

theorem runFins_mono (now : Nat) (snaps : List Activity) (st : StarRealmsShared) :
    ∀ i ∈ st.finished, i ∈ (runFins now snaps st).finished := by
  induction snaps generalizing st with
  | nil => intro i hi; exact hi
  | cons a rest ih =>
    intro i hi
    show i ∈ (runFins now rest (check_finished now a st).2).finished
    apply ih
    rw [check_finished_seen]
    exact collectFins_seen_mono _ _ _ i hi

/-- Claim C3: for every snapshot (game ids in a snapshot are unique, as the
spec's data model states) and every prior tracker state, `check_turns`
reports an active game exactly when its id is absent from `game_turns` or
the stored record's turn owner differs from the newly computed one; a game
whose turn owner is unchanged is not reported. -/
theorem c3_check_turns_reports_iff (now : Nat) (a : Activity) (st : StarRealmsShared)
    (hnd : (a.activegames.map Game.id).Nodup) :
    ∀ g ∈ a.activegames,
      (lookupId g.id (check_turns now a st).1 = some g ↔
        (lookupId g.id st.game_turns = none ∨
          ∃ old, lookupId g.id st.game_turns = some old ∧
            old.which_turn ≠ g.which_turn)) ∧
      ((∃ old, lookupId g.id st.game_turns = some old ∧
          old.which_turn = g.which_turn) →
        lookupId g.id (check_turns now a st).1 = none) := by
  intro g hg
  rw [check_turns_fst_eq now a st hnd,
    lookupId_resultOf st.game_turns a.activegames g hnd hg]
  constructor
  · by_cases hc : turnChanged st.game_turns g = true
    · simp only [if_pos hc]
      simp [(turnChanged_true_iff st.game_turns g).mp hc]
    · simp only [if_neg hc]
      constructor
      · intro h
        exact absurd h (by simp)
      · intro h
        exact absurd ((turnChanged_true_iff st.game_turns g).mpr h) hc
  · rintro ⟨old, hlook, heq⟩
    have hc : turnChanged st.game_turns g = false := by
      rw [turnChanged, hlook]
      simp [heq]
    simp [hc]

/-- Witness for C3: with game 1 stored as Alice's turn and the snapshot
showing Bob's turn, the game is reported with its new record. -/
theorem c3_witness :
    lookupId 1 (check_turns 0 ⟨[⟨1, "Bob", "Alice"⟩], [], []⟩
        { game_turns := [(1, ⟨1, "Alice", "Bob"⟩)], challenges := [],
          finished := [], last_update := 0 }).1 = some ⟨1, "Bob", "Alice"⟩ :=
  (c3_check_turns_reports_iff 0 ⟨[⟨1, "Bob", "Alice"⟩], [], []⟩
      { game_turns := [(1, ⟨1, "Alice", "Bob"⟩)], challenges := [],
        finished := [], last_update := 0 } (by decide) ⟨1, "Bob", "Alice"⟩
      (by decide)).1.mpr
    (Or.inr ⟨⟨1, "Alice", "Bob"⟩, by decide, by decide⟩)

/-- Claim C6: each of the three check operations, run at current time `now`
(not earlier than the stored timestamp), sets `last_update` to `now` exactly
when it reported at least one item, leaves it unchanged otherwise, and never
decreases it. -/
theorem c6_last_update_iff_detected (now : Nat) (a : Activity) (st : StarRealmsShared)
    (hmono : st.last_update ≤ now) :
    (((check_turns now a st).1 ≠ [] → (check_turns now a st).2.last_update = now) ∧
     ((check_turns now a st).1 = [] →
        (check_turns now a st).2.last_update = st.last_update) ∧
     st.last_update ≤ (check_turns now a st).2.last_update) ∧
    (((check_challenges now a st).1 ≠ [] →
        (check_challenges now a st).2.last_update = now) ∧
     ((check_challenges now a st).1 = [] →
        (check_challenges now a st).2.last_update = st.last_update) ∧
     st.last_update ≤ (check_challenges now a st).2.last_update) ∧
    (((check_finished now a st).1 ≠ [] →
        (check_finished now a st).2.last_update = now) ∧
     ((check_finished now a st).1 = [] →
        (check_finished now a st).2.last_update = st.last_update) ∧
     st.last_update ≤ (check_finished now a st).2.last_update) := by
  refine ⟨⟨fun h => ?_, fun h => ?_, check_turns_last_update_ge now a st hmono⟩,
    ⟨fun h => ?_, fun h => ?_, check_challenges_last_update_ge now a st hmono⟩,
    ⟨fun h => ?_, fun h => ?_, check_finished_last_update_ge now a st hmono⟩⟩
  · rw [check_turns_last_update, if_neg h]
  · rw [check_turns_last_update, if_pos h]
  · rw [check_challenges_last_update, if_neg h]
  · rw [check_challenges_last_update, if_pos h]
  · rw [check_finished_last_update, if_neg h]
  · rw [check_finished_last_update, if_pos h]

/-- Witness for C6: a first sighting of game 1 at time 5 stamps
`last_update = 5`. -/
theorem c6_witness :
    (check_turns 5 ⟨[⟨1, "Alice", "Bob"⟩], [], []⟩ (initialShared 0)).2.last_update
      = 5 :=
  (c6_last_update_iff_detected 5 ⟨[⟨1, "Alice", "Bob"⟩], [], []⟩ (initialShared 0)
      (by decide)).1.1 (by decide)

/-- Claim C8: the poll loop sleeps 60 seconds exactly when the elapsed time
since `last_update` is at least 30 minutes (1800000 milliseconds, so exactly
30:00 gives 60 s), and 5 seconds exactly when it is below 30 minutes (for
example at 29:59). -/
theorem c8_backoff_threshold (now : Nat) (st : StarRealmsShared) :
    (pollSleep now st = 60 ↔ 1800000 ≤ now - st.last_update) ∧
    (pollSleep now st = 5 ↔ now - st.last_update < 1800000) := by
  have hkey : ((now - st.last_update) / 1000 ≥ 30 * 60) ↔
      1800000 ≤ now - st.last_update := by
    omega
  rw [pollSleep]
  split_ifs with hc
  · have hp := hkey.mp hc
    constructor
    · simp [hp]
    · simp
      omega
  · have hp : ¬ (1800000 ≤ now - st.last_update) := fun h => hc (hkey.mpr h)
    constructor
    · simp
      omega
    · simp
      omega

/-- Claim C9 counterexample: in `Handler::message` the show-challenges
command is matched with a case-sensitive `starts_with("!chal")`; the casing
variant `"!Chal"` named by the claim does not trigger the listing. -/
theorem c9_counterexample : chalCommandTriggered "!Chal".toList = false := by
  decide

/-- Claim C9 amended: the show-challenges command is matched case
sensitively: the exact lowercase prefix `"!chal"` triggers it, while other
casings such as `"!Chal"` and `"!CHAL"` do not; only the version command is
matched case-insensitively. -/
theorem c9_amended_case_sensitive :
    chalCommandTriggered "!chal".toList = true ∧
    chalCommandTriggered "!chal list".toList = true ∧
    chalCommandTriggered "!Chal list".toList = false ∧
    chalCommandTriggered "!CHAL".toList = false ∧
    versionCommandTriggered "!VeRsIoN".toList = true ∧
    versionCommandTriggered "!version".toList = true := by
  refine ⟨?_, ?_, ?_, ?_, ?_, ?_⟩ <;> decide

theorem newShared_gt (t0 t1 t2 t3 : Nat) (a1 a2 a3 : Activity) :
    (newShared t0 t1 t2 t3 a1 a2 a3).game_turns
      = (check_turns t1 a1 (initialShared t0)).2.game_turns := by
  rw [newShared, check_finished_gt, check_challenges_gt]

theorem newShared_chals (t0 t1 t2 t3 : Nat) (a1 a2 a3 : Activity) :
    (newShared t0 t1 t2 t3 a1 a2 a3).challenges
      = (check_challenges t2 a2
          (check_turns t1 a1 (initialShared t0)).2).2.challenges := by
  rw [newShared, check_finished_chals]

theorem check_turns_rerun_empty (now now2 : Nat) (a : Activity)
    (st st2 : StarRealmsShared) (hnd : (a.activegames.map Game.id).Nodup)
    (hgt : st2.game_turns = (check_turns now a st).2.game_turns) :
    (check_turns now2 a st2).1 = [] := by
  rw [check_turns_fst, hgt]
  exact collectTurns_all_unchanged _ _ _
    (fun g hg => turnChanged_after now a st hnd g hg)

theorem check_challenges_rerun_empty (now2 : Nat) (a : Activity)
    (st2 : StarRealmsShared) (hsub : ∀ c ∈ a.challenges, c.id ∈ st2.challenges) :
    (check_challenges now2 a st2).1 = [] := by
  rw [check_challenges_fst, collectChals_all_seen _ _ _ hsub]

theorem check_finished_rerun_empty (now2 : Nat) (a : Activity)
    (st2 : StarRealmsShared) (hsub : ∀ g ∈ a.finishedgames, g.id ∈ st2.finished) :
    (check_finished now2 a st2).1 = [] := by
  rw [check_finished_fst, collectFins_all_seen _ _ _ hsub]

/-- Claim C4: after running a detect operation once on snapshot `a` (and in
particular after priming via `StarRealmsShared::new`), running the same
operation again with the same snapshot on the resulting state reports
nothing, for all three operations (snapshot game ids are unique per the
data model). -/
theorem c4_rerun_and_priming_empty (now now2 t0 t1 t2 t3 : Nat)
    (a a1 a2 a3 : Activity) (st : StarRealmsShared)
    (hnd : (a.activegames.map Game.id).Nodup)
    (hnd1 : (a1.activegames.map Game.id).Nodup) :
    (check_turns now2 a (check_turns now a st).2).1 = [] ∧
    (check_challenges now2 a (check_challenges now a st).2).1 = [] ∧
    (check_finished now2 a (check_finished now a st).2).1 = [] ∧
    (check_turns now2 a1 (newShared t0 t1 t2 t3 a1 a2 a3)).1 = [] ∧
    (check_challenges now2 a2 (newShared t0 t1 t2 t3 a1 a2 a3)).1 = [] ∧
    (check_finished now2 a3 (newShared t0 t1 t2 t3 a1 a2 a3)).1 = [] := by
  refine ⟨?_, ?_, ?_, ?_, ?_, ?_⟩
  · exact check_turns_rerun_empty now now2 a st _ hnd rfl
  · apply check_challenges_rerun_empty
    intro c hc
    rw [check_challenges_seen]
    exact collectChals_mem_seen _ _ _ c hc
  · apply check_finished_rerun_empty
    intro g hg
    rw [check_finished_seen]
    exact collectFins_mem_seen _ _ _ g hg
  · exact check_turns_rerun_empty t1 now2 a1 (initialShared t0) _ hnd1
      (newShared_gt t0 t1 t2 t3 a1 a2 a3)
  · apply check_challenges_rerun_empty
    intro c hc
    rw [newShared_chals, check_challenges_seen]
    exact collectChals_mem_seen _ _ _ c hc
  · apply check_finished_rerun_empty
    intro g hg
    rw [newShared, check_finished_seen]
    exact collectFins_mem_seen _ _ _ g hg

/-- Witness for C4: game 1 reported on the first check is not reported when
the same snapshot is checked again. -/
theorem c4_witness :
    (check_turns 1 ⟨[⟨1, "Alice", "Bob"⟩], [], []⟩
        (check_turns 0 ⟨[⟨1, "Alice", "Bob"⟩], [], []⟩ (initialShared 0)).2).1
      = [] :=
  (c4_rerun_and_priming_empty 0 1 0 0 0 0 ⟨[⟨1, "Alice", "Bob"⟩], [], []⟩
      ⟨[], [], []⟩ ⟨[], [], []⟩ ⟨[], [], []⟩ (initialShared 0)
      (by decide) (by decide)).1

/-- Claim C5: a challenge id or finished-game id already recorded as seen is
never reported by any later call, across any sequence of snapshots; a fresh
id present in a snapshot is reported by that call, and no call reports an id
twice. -/
theorem c5_seen_never_reported_again (now : Nat) (st : StarRealmsShared)
    (i : Int) (snaps : List Activity) (a : Activity) :
    (i ∈ st.challenges →
      i ∉ ((check_challenges now a (runChals now snaps st)).1.map Challenge.id)) ∧
    (i ∈ st.finished →
      i ∉ ((check_finished now a (runFins now snaps st)).1.map Game.id)) ∧
    (i ∉ st.challenges → i ∈ a.challenges.map Challenge.id →
      i ∈ ((check_challenges now a st).1.map Challenge.id)) ∧
    ((check_challenges now a st).1.map Challenge.id).Nodup ∧
    (i ∉ st.finished → i ∈ a.finishedgames.map Game.id →
      i ∈ ((check_finished now a st).1.map Game.id)) ∧
    ((check_finished now a st).1.map Game.id).Nodup := by
  refine ⟨fun hi => ?_, fun hi => ?_, fun hni hin => ?_, ?_, fun hni hin => ?_, ?_⟩
  · rw [check_challenges_fst]
    exact collectChals_not_reported _ _ _ i (runChals_mono now snaps st i hi)
      (by simp)
  · rw [check_finished_fst]
    exact collectFins_not_reported _ _ _ i (runFins_mono now snaps st i hi)
      (by simp)
  · rw [check_challenges_fst]
    exact collectChals_reported_of_fresh _ _ _ i (fun h => absurd h hni) hin
  · rw [check_challenges_fst]
    exact collectChals_nodup _ _ _ (by simp) (by simp)
  · rw [check_finished_fst]
    exact collectFins_reported_of_fresh _ _ _ i (fun h => absurd h hni) hin
  · rw [check_finished_fst]
    exact collectFins_nodup _ _ _ (by simp) (by simp)

/-- Witness for C5: challenge 42 is reported when fresh, and never again once
its id is recorded, even after a further cycle on the same snapshot. -/
theorem c5_witness :
    ((42 : Int) ∈ ((check_challenges 0 ⟨[], [⟨42, "A", "B"⟩], []⟩
        (initialShared 0)).1.map Challenge.id)) ∧
    ((42 : Int) ∉ ((check_challenges 0 ⟨[], [⟨42, "A", "B"⟩], []⟩
        (runChals 0 [⟨[], [⟨42, "A", "B"⟩], []⟩]
          ⟨[], [42], [], 0⟩)).1.map Challenge.id)) :=
  ⟨(c5_seen_never_reported_again 0 (initialShared 0) 42 []
      ⟨[], [⟨42, "A", "B"⟩], []⟩).2.2.1 (by decide) (by decide),
   (c5_seen_never_reported_again 0 ⟨[], [42], [], 0⟩ 42
      [⟨[], [⟨42, "A", "B"⟩], []⟩] ⟨[], [⟨42, "A", "B"⟩], []⟩).1 (by decide)⟩

/-- Claim C7 counterexample: with game 1 stored with turn owner Alice and
opponent name Xena, and the snapshot carrying the same turn owner but a
different record (opponent name Yves), `check_turns` does not overwrite the
stored record, so `game_turns` does not map id 1 to the snapshot's current
record. -/
theorem c7_counterexample :
    lookupId 1 (check_turns 9 ⟨[⟨1, "Alice", "Yves"⟩], [], []⟩
        { game_turns := [(1, ⟨1, "Alice", "Xena"⟩)], challenges := [],
          finished := [], last_update := 0 }).2.game_turns
      ≠ some ⟨1, "Alice", "Yves"⟩ := by
  decide

/-- Claim C7 amended: after `check_turns`, every game id present in the
snapshot is mapped by `game_turns` to a record whose turn owner equals the
snapshot record's turn owner — a game whose turn changed gets the full new
snapshot record, an unchanged game keeps its previously stored record — and
ids absent from the snapshot keep their previous entries unchanged. -/
theorem c7_amended_lastSeen (now : Nat) (a : Activity) (st : StarRealmsShared)
    (hnd : (a.activegames.map Game.id).Nodup) :
    (∀ g ∈ a.activegames,
      ∃ h, lookupId g.id (check_turns now a st).2.game_turns = some h ∧
        h.which_turn = g.which_turn ∧
        (turnChanged st.game_turns g = true → h = g) ∧
        (turnChanged st.game_turns g = false →
          lookupId g.id st.game_turns = some h)) ∧
    (∀ k : Int, k ∉ a.activegames.map Game.id →
      lookupId k (check_turns now a st).2.game_turns
        = lookupId k st.game_turns) := by
  constructor
  · intro g hg
    have hl := lookupId_after_check_turns now a st hnd g.id
    rw [lookupId_resultOf st.game_turns a.activegames g hnd hg] at hl
    by_cases hc : turnChanged st.game_turns g = true
    · rw [if_pos hc] at hl
      refine ⟨g, ?_, rfl, fun _ => rfl, fun hf => absurd hf (by simp [hc])⟩
      rw [hl]
      rfl
    · have hc2 : turnChanged st.game_turns g = false := by
        cases h : turnChanged st.game_turns g
        · rfl
        · exact absurd h hc
      rw [if_neg hc] at hl
      cases hlk : lookupId g.id st.game_turns with
      | none =>
        exfalso
        rw [turnChanged, hlk] at hc2
        simp at hc2
      | some old =>
        have heq : old.which_turn = g.which_turn := by
          rw [turnChanged, hlk] at hc2
          simpa using hc2
        refine ⟨old, ?_, heq, fun h => absurd h hc, fun _ => rfl⟩
        rw [hl, hlk]
        rfl
  · intro k hk
    have hl := lookupId_after_check_turns now a st hnd k
    rw [lookupId_resultOf_not_mem st.game_turns a.activegames k hk] at hl
    rw [hl]
    rfl

/-- Witness for C7 (amended): id 5 is not in the snapshot, so its entry is
untouched by `check_turns`. -/
theorem c7_witness :
    lookupId 5 (check_turns 9 ⟨[⟨1, "Alice", "Yves"⟩], [], []⟩
        { game_turns := [(5, ⟨5, "Carol", "Dan"⟩)], challenges := [],
          finished := [], last_update := 0 }).2.game_turns
      = some ⟨5, "Carol", "Dan"⟩ :=
  (c7_amended_lastSeen 9 ⟨[⟨1, "Alice", "Yves"⟩], [], []⟩
      { game_turns := [(5, ⟨5, "Carol", "Dan"⟩)], challenges := [],
        finished := [], last_update := 0 } (by decide)).2 5 (by decide)

/-- Claim C10: `StarRealmsShared::new` initialises `last_update` to the
construction instant `t0` (not an epoch value), and priming only moves it
forward in time; hence at any moment within the first 30 minutes after
construction the poll loop selects the 5-second active interval. -/
theorem c10_initial_interval (t0 t1 t2 t3 now : Nat) (a1 a2 a3 : Activity)
    (h01 : t0 ≤ t1) (h12 : t1 ≤ t2) (h23 : t2 ≤ t3)
    (hnow : now < t0 + 1800000) :
    (initialShared t0).last_update = t0 ∧
    t0 ≤ (newShared t0 t1 t2 t3 a1 a2 a3).last_update ∧
    pollSleep now (newShared t0 t1 t2 t3 a1 a2 a3) = 5 := by
  have hA0 : t0 ≤ (check_turns t1 a1 (initialShared t0)).2.last_update :=
    check_turns_last_update_ge t1 a1 (initialShared t0) h01
  have hA1 : (check_turns t1 a1 (initialShared t0)).2.last_update ≤ t1 :=
    check_turns_last_update_le t1 a1 (initialShared t0) h01
  have hB0 : t0 ≤ (check_challenges t2 a2
      (check_turns t1 a1 (initialShared t0)).2).2.last_update :=
    le_trans hA0 (check_challenges_last_update_ge t2 a2 _ (le_trans hA1 h12))
  have hB1 : (check_challenges t2 a2
      (check_turns t1 a1 (initialShared t0)).2).2.last_update ≤ t2 :=
    check_challenges_last_update_le t2 a2 _ (le_trans hA1 h12)
  have hC0 : t0 ≤ (check_finished t3 a3 (check_challenges t2 a2
      (check_turns t1 a1 (initialShared t0)).2).2).2.last_update :=
    le_trans hB0 (check_finished_last_update_ge t3 a3 _ (le_trans hB1 h23))
  have hlu : t0 ≤ (newShared t0 t1 t2 t3 a1 a2 a3).last_update := hC0
  refine ⟨rfl, hlu, ?_⟩
  have hcone : ¬ ((now - (newShared t0 t1 t2 t3 a1 a2 a3).last_update) / 1000
      ≥ 30 * 60) := by
    omega
  rw [pollSleep, if_neg hcone]

/-- Witness for C10: one millisecond before the 30-minute mark after a
construction at time 0, the poll loop still sleeps 5 seconds. -/
theorem c10_witness :
    pollSleep 1799999 (newShared 0 1 2 3 ⟨[], [], []⟩ ⟨[], [], []⟩ ⟨[], [], []⟩)
      = 5 :=
  (c10_initial_interval 0 1 2 3 1799999 ⟨[], [], []⟩ ⟨[], [], []⟩ ⟨[], [], []⟩
      (by decide) (by decide) (by decide) (by decide)).2.2

/-- Claim C1 counterexample: when the activity fetch fails at the start of a
poll cycle, the `expect` panic escapes the cycle: no detect results are
produced and the loop does not continue to a next cycle, contrary to the
claim that no exception escapes. -/
theorem c1_counterexample :
    ((pollCycle 0 (fun _ => none) 0 (initialShared 0)).1).isSome = false := by
  decide

/-- Claim C1 amended: when the first fetch of a poll cycle fails, the
`expect` call panics and aborts the cycle: none of the three detect
operations produces a result, the tracker state is exactly the pre-cycle
state at the point the poll task dies, and the loop does not reach a next
iteration. -/
theorem c1_amended_fetch_failure (now : Nat) (fetch : Nat → Option Activity)
    (i : Nat) (st : StarRealmsShared) (h : fetch i = none) :
    pollCycle now fetch i st = (none, st, i + 1) := by
  rw [pollCycle, h]
  rfl

/-- Witness for C1 (amended): a failing fetch aborts the cycle with the
state untouched. -/
theorem c1_witness :
    pollCycle 7 (fun _ => none) 0 (initialShared 3) = (none, initialShared 3, 1) :=
  c1_amended_fetch_failure 7 (fun _ => none) 0 (initialShared 3) rfl

/-- Claim C2 counterexample: a poll cycle performs three fetches, not one:
starting at fetch index 0 the next cycle starts at index 3, and the
challenge check is computed against the second fetch's snapshot rather than
the same snapshot as the turn check — with challenge 42 present only in the
first fetch's snapshot, the cycle reports no challenges, while the
single-fetch semantics stated by the claim would report it. -/
theorem c2_counterexample :
    (pollCycle 0
        (fun j => if j = 0 then some ⟨[], [⟨42, "A", "B"⟩], []⟩
          else some ⟨[], [], []⟩) 0 (initialShared 0)).2.2 = 3 ∧
    (pollCycle 0
        (fun j => if j = 0 then some ⟨[], [⟨42, "A", "B"⟩], []⟩
          else some ⟨[], [], []⟩) 0 (initialShared 0)).2.2 ≠ 0 + 1 ∧
    (pollCycle 0
        (fun j => if j = 0 then some ⟨[], [⟨42, "A", "B"⟩], []⟩
          else some ⟨[], [], []⟩) 0 (initialShared 0)).1 ≠
      some (pollCycleSingleFetch 0 ⟨[], [⟨42, "A", "B"⟩], []⟩
        (initialShared 0)).1 := by
  refine ⟨?_, ?_, ?_⟩ <;> decide

/-- Claim C2 amended: each poll-loop iteration fetches the activity three
times, once inside each of `check_turns`, `check_challenges` and
`check_finished` at consecutive fetch indices, and each detect operation is
computed against its own snapshot, with the state threading through in the
fixed order turns, then challenges, then finished. -/
theorem c2_amended_three_fetches (now : Nat) (fetch : Nat → Option Activity)
    (i : Nat) (st : StarRealmsShared) (a1 a2 a3 : Activity)
    (h1 : fetch i = some a1) (h2 : fetch (i + 1) = some a2)
    (h3 : fetch (i + 2) = some a3) :
    pollCycle now fetch i st =
      (some ((check_turns now a1 st).1,
             (check_challenges now a2 (check_turns now a1 st).2).1,
             (check_finished now a3
               (check_challenges now a2 (check_turns now a1 st).2).2).1),
       (check_finished now a3
         (check_challenges now a2 (check_turns now a1 st).2).2).2,
       i + 3) := by
  rw [pollCycle, h1, h2, h3]
  rfl

/-- Witness for C2 (amended): a cycle over constantly empty snapshots runs
the three checks in order and advances the fetch index by three. -/
theorem c2_witness :
    pollCycle 0 (fun _ => some ⟨[], [], []⟩) 0 (initialShared 0) =
      (some ((check_turns 0 ⟨[], [], []⟩ (initialShared 0)).1,
             (check_challenges 0 ⟨[], [], []⟩
               (check_turns 0 ⟨[], [], []⟩ (initialShared 0)).2).1,
             (check_finished 0 ⟨[], [], []⟩
               (check_challenges 0 ⟨[], [], []⟩
                 (check_turns 0 ⟨[], [], []⟩ (initialShared 0)).2).2).1),
       (check_finished 0 ⟨[], [], []⟩
         (check_challenges 0 ⟨[], [], []⟩
           (check_turns 0 ⟨[], [], []⟩ (initialShared 0)).2).2).2,
       0 + 3) :=
  c2_amended_three_fetches 0 (fun _ => some ⟨[], [], []⟩) 0 (initialShared 0)
    ⟨[], [], []⟩ ⟨[], [], []⟩ ⟨[], [], []⟩ rfl rfl rfl

end Starbot
